import Mathlib

/-!
Verification development for the SniperLab strategy-execution engine
(worker files `src/next-sniper/src/workers/bot-worker.js`,
`src/next-sniper/public/workers/bot-worker.js` and the near-duplicate
worker iterations in `src/unnamed/part_000` and `src/unnamed/part_003`).

The JavaScript worker is shallowly embedded: decimal (JS number) amounts
become rationals, `BN` integer amounts become `Int`/`Nat`, the module
level `pausedWallets` object becomes an association list threaded through
the trade functions, `postMessage`/`log` side effects become explicit
output lists, and the asynchronous venue executors become oracles
(functions from the request data to an `Except` outcome).
-/

namespace SniperLab

/-- Decidable equality for `Except`, needed to derive decidable equality
for the observable-result structures below. -/
def exceptDecEq {ε α : Type} [DecidableEq ε] [DecidableEq α] :
    DecidableEq (Except ε α)
  | .error e, .error f =>
      if h : e = f then .isTrue (by rw [h])
      else .isFalse (by intro hc; injection hc; contradiction)
  | .error _, .ok _ => .isFalse (by intro hc; exact Except.noConfusion hc)
  | .ok _, .error _ => .isFalse (by intro hc; exact Except.noConfusion hc)
  | .ok a, .ok b =>
      if h : a = b then .isTrue (by rw [h])
      else .isFalse (by intro hc; injection hc; contradiction)

instance {ε α : Type} [DecidableEq ε] [DecidableEq α] : DecidableEq (Except ε α) :=
  exceptDecEq

/-- Checks that the code list `p` occurs at the very front of `s`.
Strings are handled as lists of character codes so that every string
operation of the worker reduces inside the kernel. -/
def leadMatch : List Nat → List Nat → Bool
  | [], _ => true
  | _ :: _, [] => false
  | p :: ps, s :: ss => p == s && leadMatch ps ss

/-- Boolean substring occurrence test on code lists: JavaScript
`String.prototype.includes`. -/
def containsSub (pat : List Nat) : List Nat → Bool
  | [] => leadMatch pat []
  | c :: t => leadMatch pat (c :: t) || containsSub pat t

/-- ASCII lower-casing of one character code, the fragment of JavaScript
`toLowerCase` exercised by the worker error messages. -/
def lowerCode (n : Nat) : Nat :=
  if 65 ≤ n ∧ n ≤ 90 then n + 32 else n

/-- The character codes of a string, lower-cased. -/
def lowerCodes (s : String) : List Nat :=
  s.data.map (fun c => lowerCode c.toNat)

/-- The character codes of a string, unchanged. -/
def codesOf (s : String) : List Nat :=
  s.data.map Char.toNat

/-- JavaScript `s.startsWith(pat)`, on code lists. -/
def strStartsWith (s pat : String) : Bool :=
  leadMatch (codesOf pat) (codesOf s)

/-- Embedding of the `retrySwap` failure classification from
`src/unnamed/part_003` line 124: the raised message is truthy (non
empty) and its lower-cased text contains both "amount" and "too low". -/
def isAmountTooLow (msg : String) : Bool :=
  (msg != "") && containsSub (lowerCodes "amount") (lowerCodes msg)
    && containsSub (lowerCodes "too low") (lowerCodes msg)

/-- Outcome of one call of a venue executor: the resolved signature or
the message of the raised error. -/
inductive VenueOutcome
  | success (sig : String)
  | failure (msg : String)
deriving DecidableEq, Repr

/-- Observable result of one `retrySwap` run: the value returned or the
error re-raised, the integer amounts the wrapped venue call was invoked
with (in order), and the backoff delays slept (in milliseconds, in
order). -/
structure RetryTrace where
  result : Except String String
  calls : List Nat
  delays : List Nat
deriving DecidableEq, Repr

/-- One step of the `while (attempt < 3)` loop of `retrySwap`
(`src/unnamed/part_003` lines 114-138, identical in
`src/unnamed/part_000` lines 182-206), recursing on the remaining
iterations (`fuel = 3 - attempt`).

State: `lexAmount` is the `amountBn` variable captured lexically by the
wrapped closure `fn` - the closure reads this variable at every call, so
each venue invocation receives `lexAmount`; `fnProp` is the `fn.amountBn`
property (absent when the call site never set it), which is the only
thing the line `fn.amountBn = fn.amountBn.divn(2)` updates (`divn`
returns a fresh BN, it does not mutate in place); `delayMs` doubles
after every sleep. On an amount-too-low failure with no `fn.amountBn`
property or with `fn.amountBn.gtn(1)` false, the loop breaks and
re-raises without sleeping. -/
def retryGo (oracle : Nat → Nat → VenueOutcome) (lexAmount : Nat) :
    Nat → Nat → Option Nat → Option String → Nat → List Nat → List Nat → RetryTrace
  | 0, _, _, lastErr, _, calls, delays =>
      ⟨.error (lastErr.getD ""), calls.reverse, delays.reverse⟩
  | fuel + 1, callIdx, fnProp, _, delayMs, calls, delays =>
      match oracle callIdx lexAmount with
      | .success sig => ⟨.ok sig, (lexAmount :: calls).reverse, delays.reverse⟩
      | .failure msg =>
          if isAmountTooLow msg then
            match fnProp with
            | some a =>
                if 1 < a then
                  retryGo oracle lexAmount fuel (callIdx + 1) (some (a / 2)) (some msg)
                    (delayMs * 2) (lexAmount :: calls) (delayMs :: delays)
                else ⟨.error msg, (lexAmount :: calls).reverse, delays.reverse⟩
            | none => ⟨.error msg, (lexAmount :: calls).reverse, delays.reverse⟩
          else
            retryGo oracle lexAmount fuel (callIdx + 1) fnProp (some msg)
              (delayMs * 2) (lexAmount :: calls) (delayMs :: delays)

/-- Embedding of `retrySwap(fn, isDevnet)` from `src/unnamed/part_003`
lines 114-138. `oracle i a` is the outcome of the `i`-th invocation of
the wrapped venue call when invoked with integer amount `a`; `amountBn`
is the integer amount the closure captured; `hasAmountProp` records
whether the call site set `fn.amountBn` (the Raydium branches do, the
Jupiter branches do not). The initial delay is 2000 ms when `isDevnet`
and 500 ms otherwise. -/
def retrySwap (oracle : Nat → Nat → VenueOutcome) (amountBn : Nat)
    (isDevnet : Bool) (hasAmountProp : Bool) : RetryTrace :=
  retryGo oracle amountBn 3 0 (if hasAmountProp then some amountBn else none) none
    (if isDevnet then 2000 else 500) [] []

example : isAmountTooLow "Swap amount too low" = true := by decide

example : isAmountTooLow "Pool not found" = false := by decide

/-! ## Executable rational arithmetic

The JavaScript engine computes on decimal numbers; the embedding uses
`ℚ`. The `Rat` arithmetic of the ambient library is `@[irreducible]`,
so the model uses the following equivalent definitions built from
`mkRat`, which the kernel can evaluate on concrete inputs; the bridge
lemmas identify them with the standard operations. -/

/-- Addition on `ℚ`, kernel-reducible. -/
def qAdd (a b : ℚ) : ℚ := mkRat (a.num * b.den + b.num * a.den) (a.den * b.den)

/-- Multiplication on `ℚ`, kernel-reducible. -/
def qMul (a b : ℚ) : ℚ := mkRat (a.num * b.num) (a.den * b.den)

/-- Negation on `ℚ`, kernel-reducible. -/
def qNeg (a : ℚ) : ℚ := mkRat (-a.num) a.den

/-- The power `10 ^ d` as a rational, kernel-reducible. -/
def qPow10 (d : Nat) : ℚ := mkRat (10 ^ d) 1

/-- JavaScript `Math.round`: round half towards positive infinity,
kernel-reducible. -/
def qRound (a : ℚ) : ℤ := (qAdd a (mkRat 1 2)).floor

theorem floor_eq_ratFloor (q : ℚ) : ⌊q⌋ = q.floor := by
  rw [Rat.floor_def, Rat.floor_def']

theorem qAdd_eq (a b : ℚ) : qAdd a b = a + b := by
  have ha : ((a.den : ℚ)) ≠ 0 := by exact_mod_cast a.den_ne_zero
  have hb : ((b.den : ℚ)) ≠ 0 := by exact_mod_cast b.den_ne_zero
  rw [qAdd, Rat.mkRat_eq_div]
  conv_rhs => rw [← Rat.num_div_den a, ← Rat.num_div_den b]
  rw [div_add_div _ _ ha hb]
  push_cast
  ring_nf

theorem qMul_eq (a b : ℚ) : qMul a b = a * b := by
  have ha : ((a.den : ℚ)) ≠ 0 := by exact_mod_cast a.den_ne_zero
  have hb : ((b.den : ℚ)) ≠ 0 := by exact_mod_cast b.den_ne_zero
  rw [qMul, Rat.mkRat_eq_div]
  conv_rhs => rw [← Rat.num_div_den a, ← Rat.num_div_den b]
  rw [div_mul_div_comm]
  push_cast
  ring_nf

theorem qNeg_eq (a : ℚ) : qNeg a = -a := by
  rw [qNeg, Rat.mkRat_eq_div]
  push_cast
  rw [neg_div, Rat.num_div_den]

theorem qPow10_eq (d : Nat) : qPow10 d = (10 : ℚ) ^ d := by
  rw [qPow10, Rat.mkRat_eq_div]
  push_cast
  simp

theorem qRound_eq (a : ℚ) : qRound a = round a := by
  rw [qRound, round_eq, qAdd_eq, floor_eq_ratFloor]
  norm_num [Rat.mkRat_eq_div]

theorem blt_iff (a b : ℚ) : a.blt b = true ↔ a < b := Iff.rfl

/-! ## The trade API of `src/next-sniper/src/workers/bot-worker.js` -/

/-- The module-level `pausedWallets` object: wallet key to pause flag,
absent keys reading as `false` (`undefined` is falsy). -/
abbrev PausedMap : Type := List (String × Bool)

/-- Reading `pausedWallets[key]` under JavaScript truthiness. -/
def getPaused (m : PausedMap) (k : String) : Bool :=
  (List.lookup k m).getD false

/-- Writing `pausedWallets[key] = v`. -/
def setPaused (m : PausedMap) (k : String) (v : Bool) : PausedMap :=
  (k, v) :: List.eraseP (fun p => p.1 == k) m

/-- The token descriptor of the context: `ctx.token = {address, decimals}`. -/
structure Token where
  address : String
  decimals : Nat
deriving DecidableEq, Repr

/-- One cached balance entry of `ctx.walletBalances`: native amount and
token amount, in human-readable decimals. -/
structure Balance where
  sol : ℚ
  token : ℚ
deriving DecidableEq, Repr

/-- The slice of the worker context read by `createTradeApi`
(`src/next-sniper/src/workers/bot-worker.js` lines 14-110): the network
identifier, the optional token descriptor, the optional cached balance
map and the optional pool identifier. -/
structure TradeCtx where
  network : String
  token : Option Token
  walletBalances : Option (List (String × Balance))
  poolId : Option String
deriving DecidableEq, Repr

/-- The options object of a `buy`/`sell` call; `none` stands for an
absent property. -/
structure TradeOpts where
  slippageBps : Option Nat
  poolId : Option String
deriving DecidableEq, Repr

/-- The empty options object `{}`, the default. -/
def defaultOpts : TradeOpts := ⟨none, none⟩

/-- The two venue executors: Jupiter (the quote-then-submit client,
venue A) and Raydium (the pool-based AMM client, venue B). -/
inductive VenueKind
  | jupiter
  | raydium
deriving DecidableEq, Repr

/-- The data of one call into a venue executor: which executor, the
integer base-unit amount handed over, and the pool identifier for the
Raydium path. -/
structure VenueCall where
  venue : VenueKind
  amount : ℤ
  poolId : Option String
deriving DecidableEq, Repr

/-- One log template of the trade API, one constructor per `log(...)`
string of the source. -/
inductive TLog
  | buyRequest (amount : ℚ)
  | sellRequest (amount : ℚ)
  | balanceTooLow (wallet : String)
  | missingPoolBuy
  | missingPoolSell
deriving DecidableEq, Repr

/-- One `postMessage({balanceUpdate})` event: the wallet key and the
optional signed native/token deltas. -/
structure BUpdate where
  wallet : String
  solChange : Option ℚ
  tokenChange : Option ℚ
deriving DecidableEq, Repr

/-- Observable result of one `buy`/`sell` call: the value returned
(`.ok none` is the bare `return`, i.e. `undefined`) or the error thrown,
the final `pausedWallets` map, the logs emitted, the venue calls made
and the balance-update events posted. -/
structure TradeResult where
  ret : Except String (Option String)
  pw : PausedMap
  logs : List TLog
  calls : List VenueCall
  events : List BUpdate
deriving DecidableEq, Repr

/-- `opts.slippageBps || 50`: JavaScript `||` falls through on the falsy
values `undefined` and `0`. -/
def jsOrNat (a : Option Nat) (dflt : Nat) : Nat :=
  match a with
  | some n => if n = 0 then dflt else n
  | none => dflt

/-- `opts.poolId || ctx.poolId` followed by the `if (!poolId)` truthiness
test: an empty string is falsy. -/
def jsOrStr (a b : Option String) : Option String :=
  match a with
  | some s => if s = "" then (match b with
      | some t => if t = "" then none else some t
      | none => none) else some s
  | none => match b with
      | some t => if t = "" then none else some t
      | none => none

/-- `buildAmount` from `src/next-sniper/src/workers/bot-worker.js` lines
15-18: `new BN(Math.round(amt * 10 ** decimals))` with
`decimals = ctx.token?.decimals || 0`. -/
def buildAmount (ctx : TradeCtx) (amt : ℚ) : ℤ :=
  qRound (qMul amt (qPow10 ((ctx.token.map Token.decimals).getD 0)))

/-- `buildAmount` is exactly `Math.round(amt * 10 ** decimals)` in the
standard arithmetic of `ℚ`: round half up of the product. -/
theorem buildAmount_eq (ctx : TradeCtx) (amt : ℚ) :
    buildAmount ctx amt =
      round (amt * (10 : ℚ) ^ ((ctx.token.map Token.decimals).getD 0)) := by
  rw [buildAmount, qRound_eq, qMul_eq, qPow10_eq]

/-- The fixed fee reserve of the buy gate, `fee = 0.00001` (line 25). -/
def feeReserve : ℚ := mkRat 1 100000

/-- The balance-gate condition of `buy` (line 26):
`bal && bal.sol < amount + fee`. -/
def buyGateTrips (ctx : TradeCtx) (key : String) (amount : ℚ) : Bool :=
  match ctx.walletBalances.bind (List.lookup key) with
  | some b => b.sol.blt (qAdd amount feeReserve)
  | none => false

/-- The balance-gate condition of `sell` (line 70): `bal && bal.token < amount`. -/
def sellGateTrips (ctx : TradeCtx) (key : String) (amount : ℚ) : Bool :=
  match ctx.walletBalances.bind (List.lookup key) with
  | some b => b.token.blt amount
  | none => false

/-- The buy gate trips exactly when the cached entry exists and its
native amount is below the requested amount plus the fee reserve. -/
theorem buyGateTrips_iff (ctx : TradeCtx) (key : String) (amount : ℚ) :
    buyGateTrips ctx key amount = true ↔
      ∃ b, ctx.walletBalances.bind (List.lookup key) = some b ∧
        b.sol < amount + 1 / 100000 := by
  rw [buyGateTrips]
  cases h : ctx.walletBalances.bind (List.lookup key) with
  | none => simp
  | some b =>
      simp only [h, Option.some.injEq]
      rw [blt_iff, qAdd_eq]
      constructor
      · intro hlt
        refine ⟨b, rfl, ?_⟩
        have : feeReserve = 1 / 100000 := by
          rw [feeReserve, Rat.mkRat_eq_div]
          norm_num
        rw [← this]
        exact hlt
      · rintro ⟨b', hb', hlt⟩
        cases hb'
        have : feeReserve = 1 / 100000 := by
          rw [feeReserve, Rat.mkRat_eq_div]
          norm_num
        rw [this]
        exact hlt

/-- The sell gate trips exactly when the cached entry exists and its
token amount is below the requested amount. -/
theorem sellGateTrips_iff (ctx : TradeCtx) (key : String) (amount : ℚ) :
    sellGateTrips ctx key amount = true ↔
      ∃ b, ctx.walletBalances.bind (List.lookup key) = some b ∧
        b.token < amount := by
  rw [sellGateTrips]
  cases h : ctx.walletBalances.bind (List.lookup key) with
  | none => simp
  | some b =>
      simp only [h, Option.some.injEq]
      rw [blt_iff]
      constructor
      · intro hlt
        exact ⟨b, rfl, hlt⟩
      · rintro ⟨b', hb', hlt⟩
        cases hb'
        exact hlt

/-- Shared tail of `buy` and `sell` after the balance gate has passed:
clear the pause flag, build the integer amount, route by
`ctx.network.startsWith('mainnet')`, throw `poolId required` when the
Raydium path has no pool identifier, call the venue executor and on
success post the balance-update event. `venueRes` is the oracle giving
each venue call's outcome; `missingPool` and `event` are the
side-channel values that differ between `buy` and `sell`. -/
def tradeTail (pw : PausedMap) (ctx : TradeCtx) (key : String)
    (venueRes : VenueCall → Except String String) (opts : TradeOpts)
    (logs0 : List TLog) (missingPool : TLog) (event : BUpdate)
    (amountBn : ℤ) : TradeResult :=
  let pw1 := setPaused pw key false
  if strStartsWith ctx.network "mainnet" then
    let call : VenueCall := ⟨.jupiter, amountBn, none⟩
    match venueRes call with
    | .ok sig => ⟨.ok (some sig), pw1, logs0, [call], [event]⟩
    | .error e => ⟨.error e, pw1, logs0, [call], []⟩
  else
    match jsOrStr opts.poolId ctx.poolId with
    | none => ⟨.error "poolId required", pw1, logs0 ++ [missingPool], [], []⟩
    | some pid =>
        let call : VenueCall := ⟨.raydium, amountBn, some pid⟩
        match venueRes call with
        | .ok sig => ⟨.ok (some sig), pw1, logs0, [call], [event]⟩
        | .error e => ⟨.error e, pw1, logs0, [call], []⟩

/-- Embedding of `buy` from `src/next-sniper/src/workers/bot-worker.js`
lines 21-65. `pw` is the `pausedWallets` state on entry, `key` the
wallet's base58 public key, `venueRes` the oracle for the routed venue
executor, `amount` the human-readable decimal amount. -/
def buy (pw : PausedMap) (ctx : TradeCtx) (key : String)
    (venueRes : VenueCall → Except String String) (amount : ℚ)
    (opts : TradeOpts) : TradeResult :=
  let logs0 : List TLog := [.buyRequest amount]
  if buyGateTrips ctx key amount then
    if !(getPaused pw key) then
      ⟨.ok none, setPaused pw key true, logs0 ++ [.balanceTooLow key], [], []⟩
    else
      ⟨.ok none, pw, logs0, [], []⟩
  else
    tradeTail pw ctx key venueRes opts logs0 .missingPoolBuy
      ⟨key, some (qNeg amount), none⟩ (buildAmount ctx amount)

/-- Embedding of `sell` from `src/next-sniper/src/workers/bot-worker.js`
lines 66-108, analogous to `buy` with the token-balance gate and the
token-side balance-update event. -/
def sell (pw : PausedMap) (ctx : TradeCtx) (key : String)
    (venueRes : VenueCall → Except String String) (amount : ℚ)
    (opts : TradeOpts) : TradeResult :=
  let logs0 : List TLog := [.sellRequest amount]
  if sellGateTrips ctx key amount then
    if !(getPaused pw key) then
      ⟨.ok none, setPaused pw key true, logs0 ++ [.balanceTooLow key], [], []⟩
    else
      ⟨.ok none, pw, logs0, [], []⟩
  else
    tradeTail pw ctx key venueRes opts logs0 .missingPoolSell
      ⟨key, none, some (qNeg amount)⟩ (buildAmount ctx amount)

/-- The trade router as its own definition: the branch condition of
lines 37 and 81, `ctx.network.startsWith('mainnet')`, mapped to the
venue the taken branch calls. -/
def routeVenue (network : String) : VenueKind :=
  if strStartsWith network "mainnet" then .jupiter else .raydium

example :
    buy [] ⟨"mainnet-beta", some ⟨"TOK", 6⟩, none, none⟩ "W"
      (fun _ => .ok "S") (mkRat 1 2) defaultOpts =
      ⟨.ok (some "S"), [("W", false)], [.buyRequest (mkRat 1 2)],
        [⟨.jupiter, 500000, none⟩], [⟨"W", some (mkRat (-1) 2), none⟩]⟩ := by decide

example :
    buy [] ⟨"devnet", some ⟨"TOK", 6⟩, some [("W", ⟨mkRat 1 10, mkRat 0 1⟩)], some "P"⟩ "W"
      (fun _ => .ok "S") (mkRat 1 1) defaultOpts =
      ⟨.ok none, [("W", true)], [.buyRequest (mkRat 1 1), .balanceTooLow "W"], [], []⟩ := by
  decide

/-! ## The orchestrator of `self.onmessage`
(`src/next-sniper/src/workers/bot-worker.js` lines 112-214) -/

/-- The two execution modes of the inbound message. -/
inductive Mode
  | perBot
  | group
deriving DecidableEq, Repr

/-- Result of compiling (`new Function`) and initializing
(`fn(exports, workerContext)`) the user code: a compile exception, an
initialization exception, or a populated export slot, with
`hasStrategy` recording whether `typeof exports.strategy === 'function'`. -/
inductive CompileResult
  | compileError (msg : String)
  | initError (msg : String)
  | populated (hasStrategy : Bool)
deriving DecidableEq, Repr

/-- One outbound worker message or log template of the `onmessage`
handler, one constructor per `postMessage`/`log` site. `errorOut` is the
`postMessage({error})` message; everything else is a `{log}`. -/
inductive WMsg
  | logReceived
  | logCompileFailed (msg : String)
  | logInitFailed (msg : String)
  | logPreparing
  | logNoStrategy
  | logNoBots
  | logGroupMode
  | logGroupComplete
  | logGroupError (msg : String)
  | logRunningBot (wallet : String)
  | logBotError (wallet : String) (msg : String)
  | errorOut (msg : String)
deriving DecidableEq, Repr

/-- Observable output of one `onmessage` invocation: the ordered
message stream and the strategy invocations made (`some w` for the
per-bot call on wallet `w`, `none` for the single group-mode call). -/
structure RunOutput where
  msgs : List WMsg
  stratCalls : List (Option String)
deriving DecidableEq, Repr

/-- The per-bot loop (lines 195-204): for each wallet in order, log the
running message, invoke the strategy and catch a thrown error into a
log carrying the wallet address, then continue with the next wallet.
`strat` maps the invocation target to the strategy outcome. -/
def runPerBotLoop (strat : Option String → Except String Unit) :
    List String → List WMsg × List (Option String)
  | [] => ([], [])
  | w :: ws =>
      let rest := runPerBotLoop strat ws
      match strat (some w) with
      | .ok _ => (.logRunningBot w :: rest.1, some w :: rest.2)
      | .error e => (.logRunningBot w :: .logBotError w e :: rest.1, some w :: rest.2)

/-- The tail of the `onmessage` handler after wallet construction
(lines 147-205): compile, initialize, check the export slot, check the
wallet list, then dispatch on the mode. Compile and initialization
failures emit a log and a `{error}` message and stop; a missing
`strategy` export or an empty wallet list emit only a log and stop. -/
def onMessage (cr : CompileResult) (wallets : List String) (mode : Mode)
    (strat : Option String → Except String Unit) : RunOutput :=
  match cr with
  | .compileError m => ⟨[.logReceived, .logCompileFailed m, .errorOut m], []⟩
  | .initError m => ⟨[.logReceived, .logInitFailed m, .errorOut m], []⟩
  | .populated hasStrategy =>
      if !hasStrategy then
        ⟨[.logReceived, .logPreparing, .logNoStrategy], []⟩
      else if wallets.isEmpty then
        ⟨[.logReceived, .logPreparing, .logNoBots], []⟩
      else
        match mode with
        | .group =>
            match strat none with
            | .ok _ =>
                ⟨[.logReceived, .logPreparing, .logGroupMode, .logGroupComplete], [none]⟩
            | .error e =>
                ⟨[.logReceived, .logPreparing, .logGroupMode, .logGroupError e], [none]⟩
        | .perBot =>
            let r := runPerBotLoop strat wallets
            ⟨[.logReceived, .logPreparing] ++ r.1, r.2⟩

example :
    onMessage (.populated true) ["A", "B", "C"] .perBot
      (fun t => if t = some "B" then .error "boom" else .ok ()) =
      ⟨[.logReceived, .logPreparing, .logRunningBot "A", .logRunningBot "B",
        .logBotError "B" "boom", .logRunningBot "C"],
        [some "A", some "B", some "C"]⟩ := by decide

/-! ## Helper lemmas -/

theorem feeReserve_eq : feeReserve = 1 / 100000 := by
  rw [feeReserve, Rat.mkRat_eq_div]
  norm_num

theorem getPaused_setPaused (m : PausedMap) (k : String) (v : Bool) :
    getPaused (setPaused m k v) k = v := by
  simp [getPaused, setPaused, List.lookup]

/-- Every venue call recorded by the shared tail carries the integer
amount handed in and the venue selected by the network identifier. -/
theorem tradeTail_calls (pw : PausedMap) (ctx : TradeCtx) (key : String)
    (venueRes : VenueCall → Except String String) (opts : TradeOpts)
    (logs0 : List TLog) (mp : TLog) (ev : BUpdate) (amountBn : ℤ) (c : VenueCall)
    (hc : c ∈ (tradeTail pw ctx key venueRes opts logs0 mp ev amountBn).calls) :
    c.amount = amountBn ∧ c.venue = routeVenue ctx.network := by
  simp only [tradeTail] at hc
  rw [routeVenue]
  split at hc
  next h =>
    rw [if_pos h]
    split at hc <;> simp_all
  next h =>
    rw [if_neg h]
    split at hc
    · simp at hc
    next pid hpid =>
      split at hc <;> simp_all

/-- Every venue call of a `buy` carries `buildAmount` of the requested
amount and the venue selected by the network identifier. -/
theorem buy_calls (pw : PausedMap) (ctx : TradeCtx) (key : String)
    (venueRes : VenueCall → Except String String) (amount : ℚ) (opts : TradeOpts)
    (c : VenueCall) (hc : c ∈ (buy pw ctx key venueRes amount opts).calls) :
    c.amount = buildAmount ctx amount ∧ c.venue = routeVenue ctx.network := by
  simp only [buy] at hc
  split at hc
  · split at hc <;> simp at hc
  · exact tradeTail_calls _ _ _ _ _ _ _ _ _ _ hc

/-- Every venue call of a `sell` carries `buildAmount` of the requested
amount and the venue selected by the network identifier. -/
theorem sell_calls (pw : PausedMap) (ctx : TradeCtx) (key : String)
    (venueRes : VenueCall → Except String String) (amount : ℚ) (opts : TradeOpts)
    (c : VenueCall) (hc : c ∈ (sell pw ctx key venueRes amount opts).calls) :
    c.amount = buildAmount ctx amount ∧ c.venue = routeVenue ctx.network := by
  simp only [sell] at hc
  split at hc
  · split at hc <;> simp at hc
  · exact tradeTail_calls _ _ _ _ _ _ _ _ _ _ hc

/-- The per-bot loop invokes the strategy once for every wallet, in
order, whatever the outcomes are. -/
theorem runPerBotLoop_calls (strat : Option String → Except String Unit)
    (ws : List String) : (runPerBotLoop strat ws).2 = ws.map some := by
  induction ws with
  | nil => rfl
  | cons w t ih =>
      rw [runPerBotLoop]
      cases strat (some w) <;> simp [ih]

/-- The message stream of the per-bot loop distributes over
concatenation of the wallet list: each wallet contributes its own
segment, independent of the other wallets. -/
theorem runPerBotLoop_append (strat : Option String → Except String Unit)
    (xs ys : List String) :
    (runPerBotLoop strat (xs ++ ys)).1 =
      (runPerBotLoop strat xs).1 ++ (runPerBotLoop strat ys).1 := by
  induction xs with
  | nil => rfl
  | cons w t ih =>
      rw [List.cons_append, runPerBotLoop, runPerBotLoop]
      cases strat (some w) <;> simp [ih]

/-- The geometric backoff schedule: `n` delays starting at `d`, each
double the previous one (`delayMs *= 2` after every sleep). -/
def backoffList (d : Nat) : Nat → List Nat
  | 0 => []
  | n + 1 => d :: backoffList (d * 2) n

/-- Whatever the venue outcomes are - successes, plain failures,
amount-too-low failures with or without halving, or an early break -
the delays slept by the retry loop are an initial segment of the
geometric schedule starting at the current delay: every delay that is
inserted has the scheduled value. -/
theorem retryGo_delays_take (oracle : Nat → Nat → VenueOutcome) (lexAmount : Nat) :
    ∀ (fuel callIdx : Nat) (fnProp : Option Nat) (lastErr : Option String)
      (delayMs : Nat) (calls delays : List Nat),
    ∃ k, (retryGo oracle lexAmount fuel callIdx fnProp lastErr delayMs calls delays).delays =
      delays.reverse ++ List.take k (backoffList delayMs fuel) := by
  intro fuel
  induction fuel with
  | zero =>
      intro callIdx fnProp lastErr delayMs calls delays
      exact ⟨0, by simp [retryGo, backoffList]⟩
  | succ n ih =>
      intro callIdx fnProp lastErr delayMs calls delays
      simp only [retryGo]
      cases ho : oracle callIdx lexAmount with
      | success sig => exact ⟨0, by simp⟩
      | failure msg =>
          by_cases ht : isAmountTooLow msg = true
          · simp only [ht, if_true]
            cases fnProp with
            | none => exact ⟨0, by simp⟩
            | some v =>
                dsimp only
                by_cases h1 : 1 < v
                · rw [if_pos h1]
                  obtain ⟨k, hk⟩ := ih (callIdx + 1) (some (v / 2)) (some msg)
                    (delayMs * 2) (lexAmount :: calls) (delayMs :: delays)
                  exact ⟨k + 1, by rw [hk]; simp [backoffList]⟩
                · rw [if_neg h1]
                  exact ⟨0, by simp⟩
          · have ht2 : isAmountTooLow msg = false := by simpa using ht
            simp only [ht2, Bool.false_eq_true, if_false]
            obtain ⟨k, hk⟩ := ih (callIdx + 1) fnProp (some msg)
              (delayMs * 2) (lexAmount :: calls) (delayMs :: delays)
            exact ⟨k + 1, by rw [hk]; simp [backoffList]⟩

/-- When every remaining attempt fails and retrying proceeds - each
failure either not classified amount-too-low, or with the `fn.amountBn`
property present and large enough to keep halving - the retry loop
sleeps the whole geometric schedule. -/
theorem retryGo_delays_full (oracle : Nat → Nat → VenueOutcome) (lexAmount : Nat) :
    ∀ (fuel callIdx : Nat) (fnProp : Option Nat) (lastErr : Option String)
      (delayMs : Nat) (calls delays : List Nat),
    (∀ i, i < fuel → ∃ m, oracle (callIdx + i) lexAmount = .failure m) →
    ((∀ i, i < fuel → ∀ m, oracle (callIdx + i) lexAmount = .failure m →
        isAmountTooLow m = false) ∨
      (∃ v, fnProp = some v ∧ 2 ^ fuel ≤ v)) →
    (retryGo oracle lexAmount fuel callIdx fnProp lastErr delayMs calls delays).delays =
      delays.reverse ++ backoffList delayMs fuel := by
  intro fuel
  induction fuel with
  | zero =>
      intro callIdx fnProp lastErr delayMs calls delays hf hd
      simp [retryGo, backoffList]
  | succ n ih =>
      intro callIdx fnProp lastErr delayMs calls delays hf hd
      obtain ⟨m, hm⟩ := hf 0 (Nat.succ_pos n)
      rw [Nat.add_zero] at hm
      have hshift : ∀ i, i < n → ∃ m2, oracle (callIdx + 1 + i) lexAmount = .failure m2 := by
        intro i hi
        have h := hf (i + 1) (Nat.succ_lt_succ hi)
        rwa [show callIdx + (i + 1) = callIdx + 1 + i by omega] at h
      simp only [retryGo, hm]
      by_cases ht : isAmountTooLow m = true
      · rcases hd with hleft | ⟨v, hv, hbound⟩
        · exact absurd (hleft 0 (Nat.succ_pos n) m (by rwa [Nat.add_zero])) (by simp [ht])
        · have h1v : 1 < v := by
            have h2 : (2 : Nat) ≤ 2 ^ (n + 1) := by
              calc (2 : Nat) = 2 ^ 1 := by norm_num
              _ ≤ 2 ^ (n + 1) := Nat.pow_le_pow_right (by norm_num) (by omega)
            omega
          rw [hv]
          simp only [ht, if_true, if_pos h1v]
          rw [ih (callIdx + 1) (some (v / 2)) (some m) (delayMs * 2)
            (lexAmount :: calls) (delayMs :: delays) hshift ?_]
          · simp [backoffList]
          · right
            refine ⟨v / 2, rfl, ?_⟩
            have hdiv : 2 ^ (n + 1) / 2 ≤ v / 2 := Nat.div_le_div_right hbound
            rwa [pow_succ, Nat.mul_div_cancel _ (by norm_num)] at hdiv
      · have ht2 : isAmountTooLow m = false := by simpa using ht
        simp only [ht2, Bool.false_eq_true, if_false]
        rw [ih (callIdx + 1) fnProp (some m) (delayMs * 2)
          (lexAmount :: calls) (delayMs :: delays) hshift ?_]
        · simp [backoffList]
        · rcases hd with hleft | ⟨v, hv, hbound⟩
          · left
            intro i hi m2 hm2
            refine hleft (i + 1) (Nat.succ_lt_succ hi) m2 ?_
            rwa [show callIdx + (i + 1) = callIdx + 1 + i by omega]
          · right
            exact ⟨v, hv, le_trans (Nat.pow_le_pow_right (by norm_num) (Nat.le_succ n)) hbound⟩

/-- The full observable result of `buy` when the balance gate trips:
skip branch of lines 26-32. -/
theorem buy_gate_result (pw : PausedMap) (ctx : TradeCtx) (key : String)
    (venueRes : VenueCall → Except String String) (amount : ℚ) (opts : TradeOpts)
    (ht : buyGateTrips ctx key amount = true) :
    buy pw ctx key venueRes amount opts =
      if getPaused pw key then ⟨.ok none, pw, [.buyRequest amount], [], []⟩
      else ⟨.ok none, setPaused pw key true,
        [.buyRequest amount, .balanceTooLow key], [], []⟩ := by
  simp only [buy, ht]
  cases hp : getPaused pw key <;> simp [hp]

/-- The full observable result of `sell` when the balance gate trips:
skip branch of lines 70-76. -/
theorem sell_gate_result (pw : PausedMap) (ctx : TradeCtx) (key : String)
    (venueRes : VenueCall → Except String String) (amount : ℚ) (opts : TradeOpts)
    (ht : sellGateTrips ctx key amount = true) :
    sell pw ctx key venueRes amount opts =
      if getPaused pw key then ⟨.ok none, pw, [.sellRequest amount], [], []⟩
      else ⟨.ok none, setPaused pw key true,
        [.sellRequest amount, .balanceTooLow key], [], []⟩ := by
  simp only [sell, ht]
  cases hp : getPaused pw key <;> simp [hp]

/-- After the balance gate has passed, the shared tail always clears
the wallet's pause flag (before any venue outcome is known), posts the
balance-update event exactly on a successful venue call, and posts
nothing when the call throws. -/
theorem tradeTail_obs (pw : PausedMap) (ctx : TradeCtx) (key : String)
    (venueRes : VenueCall → Except String String) (opts : TradeOpts)
    (logs0 : List TLog) (mp : TLog) (ev : BUpdate) (amountBn : ℤ) :
    getPaused (tradeTail pw ctx key venueRes opts logs0 mp ev amountBn).pw key = false ∧
    (∀ sig, (tradeTail pw ctx key venueRes opts logs0 mp ev amountBn).ret = .ok (some sig) →
      (tradeTail pw ctx key venueRes opts logs0 mp ev amountBn).events = [ev]) ∧
    (∀ e, (tradeTail pw ctx key venueRes opts logs0 mp ev amountBn).ret = .error e →
      (tradeTail pw ctx key venueRes opts logs0 mp ev amountBn).events = []) := by
  simp only [tradeTail]
  cases hm : strStartsWith ctx.network "mainnet" with
  | true =>
      cases hv : venueRes ⟨.jupiter, amountBn, none⟩ <;>
        simp [hv, getPaused_setPaused]
  | false =>
      cases hpid : jsOrStr opts.poolId ctx.poolId with
      | none => simp [hpid, getPaused_setPaused]
      | some pid =>
          cases hv : venueRes ⟨.raydium, amountBn, some pid⟩ <;>
            simp [hpid, hv, getPaused_setPaused]

/-- The logs of the shared tail are the entry log, possibly followed by
the missing-pool log. -/
theorem tradeTail_logs (pw : PausedMap) (ctx : TradeCtx) (key : String)
    (venueRes : VenueCall → Except String String) (opts : TradeOpts)
    (logs0 : List TLog) (mp : TLog) (ev : BUpdate) (amountBn : ℤ) :
    (tradeTail pw ctx key venueRes opts logs0 mp ev amountBn).logs = logs0 ∨
    (tradeTail pw ctx key venueRes opts logs0 mp ev amountBn).logs = logs0 ++ [mp] := by
  simp only [tradeTail]
  cases hm : strStartsWith ctx.network "mainnet" with
  | true =>
      cases hv : venueRes ⟨.jupiter, amountBn, none⟩ <;> simp [hv]
  | false =>
      cases hpid : jsOrStr opts.poolId ctx.poolId with
      | none => simp [hpid]
      | some pid =>
          cases hv : venueRes ⟨.raydium, amountBn, some pid⟩ <;> simp [hpid, hv]

/-- On a network starting with "mainnet" the shared tail makes exactly
one venue call, to Jupiter, with the integer amount handed in. -/
theorem tradeTail_calls_mainnet (pw : PausedMap) (ctx : TradeCtx) (key : String)
    (venueRes : VenueCall → Except String String) (opts : TradeOpts)
    (logs0 : List TLog) (mp : TLog) (ev : BUpdate) (amountBn : ℤ)
    (hm : strStartsWith ctx.network "mainnet" = true) :
    (tradeTail pw ctx key venueRes opts logs0 mp ev amountBn).calls =
      [⟨.jupiter, amountBn, none⟩] := by
  simp only [tradeTail, hm, if_true]
  cases hv : venueRes ⟨.jupiter, amountBn, none⟩ <;> simp [hv]

/-- On every other network, when a pool identifier is available, the
shared tail makes exactly one venue call, to Raydium, with the integer
amount handed in. -/
theorem tradeTail_calls_devnet (pw : PausedMap) (ctx : TradeCtx) (key : String)
    (venueRes : VenueCall → Except String String) (opts : TradeOpts)
    (logs0 : List TLog) (mp : TLog) (ev : BUpdate) (amountBn : ℤ) (pid : String)
    (hm : strStartsWith ctx.network "mainnet" = false)
    (hp : jsOrStr opts.poolId ctx.poolId = some pid) :
    (tradeTail pw ctx key venueRes opts logs0 mp ev amountBn).calls =
      [⟨.raydium, amountBn, some pid⟩] := by
  simp only [tradeTail, hm, Bool.false_eq_true, if_false, hp]
  cases hv : venueRes ⟨.raydium, amountBn, some pid⟩ <;> simp [hv]

/-! ## Claim theorems -/

/-- Claim C1. The claim states that three consecutive amount-too-low
failures on Venue B starting from integer amount A = 500000 make the
Retry Controller invoke the venue executor with amounts 500000, 250000,
125000, succeeding on the third attempt. The code does not do this: the
wrapped closure reads the lexically captured `amountBn` variable on
every invocation, while `retrySwap` only reassigns the `fn.amountBn`
property (and `BN.divn` returns a fresh object), so the halving - which
the code itself logs as "decreasing amount and retrying" - never
reaches the executor. This theorem evaluates the embedded `retrySwap`
at the failing input: the executor is invoked with 500000 all three
times (after backoffs 2000 and 4000 ms) and the third attempt's
signature is returned. -/
theorem retrySwap_amount_constant_on_too_low :
    retrySwap
      (fun i _ => if i < 2 then .failure "Swap amount too low" else .success "SIG")
      500000 true true =
      ⟨.ok "SIG", [500000, 500000, 500000], [2000, 4000]⟩ := by decide

/-- Claim C3. For every retried trade call - any venue outcomes, any
failure kinds, amount-too-low retries included: (i) the backoff delays
slept are always an initial segment of 2000, 4000, 8000 ms when the
call originated on a test/dev network (`isDevnet = true`, the Raydium
branches) and of 500, 1000, 2000 ms on the main network (`isDevnet =
false`, the Jupiter branches), so every delay inserted after failed
attempts 1, 2, 3 has the claimed value: the initial delay is chosen by
the network and doubles after every attempt; (ii) when all three
attempts fail and retrying proceeds - every failure either plain or
amount-too-low while halving is still possible (the `fn.amountBn`
property set, as on the Raydium call sites, with amount at least 8) -
the full sequences 2000, 4000, 8000 and 500, 1000, 2000 ms are slept;
(iii) an amount-too-low failure with no `fn.amountBn` property (as on
the Jupiter call sites) breaks out at once, inserting no delay at
all. -/
theorem retrySwap_backoff_sequence (oracle : Nat → Nat → VenueOutcome) (a : Nat)
    (hp : Bool) :
    (∃ k, (retrySwap oracle a true hp).delays = List.take k [2000, 4000, 8000]) ∧
    (∃ k, (retrySwap oracle a false hp).delays = List.take k [500, 1000, 2000]) ∧
    ((∀ i, i < 3 → ∃ m, oracle i a = .failure m) →
      ((∀ i, i < 3 → ∀ m, oracle i a = .failure m → isAmountTooLow m = false) ∨
        (hp = true ∧ 8 ≤ a)) →
      (retrySwap oracle a true hp).delays = [2000, 4000, 8000] ∧
      (retrySwap oracle a false hp).delays = [500, 1000, 2000]) ∧
    (∀ m, oracle 0 a = .failure m → isAmountTooLow m = true → hp = false →
      (retrySwap oracle a true hp).delays = [] ∧
      (retrySwap oracle a false hp).delays = []) := by
  have hfull : ∀ d : Nat,
      (∀ i, i < 3 → ∃ m, oracle i a = .failure m) →
      ((∀ i, i < 3 → ∀ m, oracle i a = .failure m → isAmountTooLow m = false) ∨
        (hp = true ∧ 8 ≤ a)) →
      (retryGo oracle a 3 0 (if hp then some a else none) none d [] []).delays =
        backoffList d 3 := by
    intro d hf hd
    rw [retryGo_delays_full oracle a 3 0 (if hp then some a else none) none d [] []
      (by intro i hi; rw [Nat.zero_add]; exact hf i hi) ?_]
    · rfl
    · rcases hd with hleft | ⟨hhp, h8⟩
      · left
        intro i hi m hm
        rw [Nat.zero_add] at hm
        exact hleft i hi m hm
      · right
        exact ⟨a, by rw [hhp, if_pos rfl], by simpa using h8⟩
  refine ⟨?_, ?_, ?_, ?_⟩
  · obtain ⟨k, hk⟩ :=
      retryGo_delays_take oracle a 3 0 (if hp then some a else none) none 2000 [] []
    exact ⟨k, by rw [retrySwap, if_pos rfl, hk]; rfl⟩
  · obtain ⟨k, hk⟩ :=
      retryGo_delays_take oracle a 3 0 (if hp then some a else none) none 500 [] []
    refine ⟨k, ?_⟩
    rw [retrySwap]
    simp only [Bool.false_eq_true, if_false]
    rw [hk]
    rfl
  · intro hf hd
    constructor
    · rw [retrySwap, if_pos rfl, hfull 2000 hf hd]
      rfl
    · rw [retrySwap]
      simp only [Bool.false_eq_true, if_false]
      rw [hfull 500 hf hd]
      rfl
  · intro m hm ht hhp
    subst hhp
    constructor <;> simp [retrySwap, retryGo, hm, ht]

/-- Witness for C3 on the amount-too-low schedule: three consecutive
amount-too-low failures at amount 500000 with the `fn.amountBn`
property set sleep the full 2000, 4000, 8000 ms (devnet) and 500, 1000,
2000 ms (mainnet) sequences. -/
theorem retrySwap_backoff_sequence_witness :
    (retrySwap (fun _ _ => .failure "Swap amount too low") 500000 true true).delays =
      [2000, 4000, 8000] ∧
    (retrySwap (fun _ _ => .failure "Swap amount too low") 500000 false true).delays =
      [500, 1000, 2000] :=
  (retrySwap_backoff_sequence (fun _ _ => .failure "Swap amount too low")
      500000 true).2.2.1
    (fun _ _ => ⟨"Swap amount too low", rfl⟩)
    (Or.inr ⟨rfl, by decide⟩)

/-- Claim C2. For every buy call whose wallet has a cached balance
entry with native amount below the requested amount plus the fixed fee
reserve, and every sell call with cached token amount below the
requested amount: no venue call is made, the call returns the no-op
`undefined` (`.ok none`, not an error), no balance-update event is
posted, the paused flag of the wallet ends up set, and the
balance-too-low message is logged exactly when the wallet was not yet
paused (only on the first such skip). -/
theorem balance_gate_skip (pw : PausedMap) (ctx : TradeCtx) (key : String)
    (venueRes : VenueCall → Except String String) (amount : ℚ) (opts : TradeOpts)
    (b : Balance) (hb : ctx.walletBalances.bind (List.lookup key) = some b) :
    (b.sol < amount + 1 / 100000 →
      (buy pw ctx key venueRes amount opts).calls = [] ∧
      (buy pw ctx key venueRes amount opts).ret = .ok none ∧
      (buy pw ctx key venueRes amount opts).events = [] ∧
      getPaused (buy pw ctx key venueRes amount opts).pw key = true ∧
      (buy pw ctx key venueRes amount opts).logs =
        (if getPaused pw key then [.buyRequest amount]
         else [.buyRequest amount, .balanceTooLow key])) ∧
    (b.token < amount →
      (sell pw ctx key venueRes amount opts).calls = [] ∧
      (sell pw ctx key venueRes amount opts).ret = .ok none ∧
      (sell pw ctx key venueRes amount opts).events = [] ∧
      getPaused (sell pw ctx key venueRes amount opts).pw key = true ∧
      (sell pw ctx key venueRes amount opts).logs =
        (if getPaused pw key then [.sellRequest amount]
         else [.sellRequest amount, .balanceTooLow key])) := by
  constructor
  · intro h
    have ht : buyGateTrips ctx key amount = true :=
      (buyGateTrips_iff ctx key amount).mpr ⟨b, hb, h⟩
    rw [buy_gate_result pw ctx key venueRes amount opts ht]
    cases hp : getPaused pw key <;>
      simp [hp, getPaused_setPaused]
  · intro h
    have ht : sellGateTrips ctx key amount = true :=
      (sellGateTrips_iff ctx key amount).mpr ⟨b, hb, h⟩
    rw [sell_gate_result pw ctx key venueRes amount opts ht]
    cases hp : getPaused pw key <;>
      simp [hp, getPaused_setPaused]

/-- Witness for C2: a wallet with 0.1 native units requesting a buy of
1 unit is skipped with no venue call, an undefined return and the
paused flag set. -/
theorem balance_gate_skip_witness :
    (buy [] ⟨"devnet", some ⟨"TOK", 6⟩, some [("W", ⟨mkRat 1 10, mkRat 5 1⟩)], some "P"⟩
      "W" (fun _ => .ok "S") (mkRat 1 1) defaultOpts).calls = [] ∧
    (buy [] ⟨"devnet", some ⟨"TOK", 6⟩, some [("W", ⟨mkRat 1 10, mkRat 5 1⟩)], some "P"⟩
      "W" (fun _ => .ok "S") (mkRat 1 1) defaultOpts).ret = .ok none ∧
    getPaused (buy [] ⟨"devnet", some ⟨"TOK", 6⟩, some [("W", ⟨mkRat 1 10, mkRat 5 1⟩)], some "P"⟩
      "W" (fun _ => .ok "S") (mkRat 1 1) defaultOpts).pw "W" = true :=
  have h := balance_gate_skip []
    ⟨"devnet", some ⟨"TOK", 6⟩, some [("W", ⟨mkRat 1 10, mkRat 5 1⟩)], some "P"⟩
    "W" (fun _ => .ok "S") (mkRat 1 1) defaultOpts ⟨mkRat 1 10, mkRat 5 1⟩ rfl
  have h2 := h.1 (by rw [← feeReserve_eq, ← qAdd_eq]; decide)
  ⟨h2.1, h2.2.1, h2.2.2.2.1⟩

/-- Claim C7, counterexample. The claim states the paused flag is
cleared on the next successful trade and not before the venue call
succeeds. In the code `pausedWallets[key] = false` runs as soon as the
balance gate passes, before the venue call: here a paused wallet with
sufficient balance attempts a buy whose venue call throws, yet the flag
ends up cleared although no trade succeeded. -/
theorem pause_cleared_before_success_cex :
    getPaused [("W", true)] "W" = true ∧
    (buy [("W", true)]
      ⟨"mainnet-beta", some ⟨"TOK", 6⟩, some [("W", ⟨mkRat 5 1, mkRat 5 1⟩)], none⟩
      "W" (fun _ => .error "send failed") (mkRat 1 1) defaultOpts).ret =
      .error "send failed" ∧
    getPaused (buy [("W", true)]
      ⟨"mainnet-beta", some ⟨"TOK", 6⟩, some [("W", ⟨mkRat 5 1, mkRat 5 1⟩)], none⟩
      "W" (fun _ => .error "send failed") (mkRat 1 1) defaultOpts).pw "W" = false := by
  decide

/-- Claim C7 as amended. For every wallet: a buy whose balance gate
passes clears the paused flag - before the venue call, hence also when
that call then fails - and on success posts the balance-update event
carrying the wallet address and the signed native delta; independently,
a sell whose balance gate passes does the same with the signed token
delta. Each side assumes only its own gate: a paused wallet whose
native balance suffices for the buy has its flag cleared by that buy
whatever its token balance is, and symmetrically. -/
theorem pause_cleared_on_gate_pass (pw : PausedMap) (ctx : TradeCtx) (key : String)
    (venueRes : VenueCall → Except String String) (amount : ℚ) (opts : TradeOpts) :
    (buyGateTrips ctx key amount = false →
      getPaused (buy pw ctx key venueRes amount opts).pw key = false ∧
      ∀ sig, (buy pw ctx key venueRes amount opts).ret = .ok (some sig) →
        (buy pw ctx key venueRes amount opts).events = [⟨key, some (-amount), none⟩]) ∧
    (sellGateTrips ctx key amount = false →
      getPaused (sell pw ctx key venueRes amount opts).pw key = false ∧
      ∀ sig, (sell pw ctx key venueRes amount opts).ret = .ok (some sig) →
        (sell pw ctx key venueRes amount opts).events = [⟨key, none, some (-amount)⟩]) := by
  rw [← qNeg_eq amount]
  constructor
  · intro hgb
    have hb : buy pw ctx key venueRes amount opts =
        tradeTail pw ctx key venueRes opts [.buyRequest amount] .missingPoolBuy
          ⟨key, some (qNeg amount), none⟩ (buildAmount ctx amount) := by
      simp [buy, hgb]
    rw [hb]
    exact ⟨(tradeTail_obs _ _ _ _ _ _ _ _ _).1, (tradeTail_obs _ _ _ _ _ _ _ _ _).2.1⟩
  · intro hgs
    have hs : sell pw ctx key venueRes amount opts =
        tradeTail pw ctx key venueRes opts [.sellRequest amount] .missingPoolSell
          ⟨key, none, some (qNeg amount)⟩ (buildAmount ctx amount) := by
      simp [sell, hgs]
    rw [hs]
    exact ⟨(tradeTail_obs _ _ _ _ _ _ _ _ _).1, (tradeTail_obs _ _ _ _ _ _ _ _ _).2.1⟩

/-- Witness for C7 as amended: a paused wallet that is rich in native
units but has zero token balance (so a sell of this amount would be
gated) makes a successful buy; the flag is cleared and the
balance-update event posted. -/
theorem pause_cleared_on_gate_pass_witness :
    getPaused (buy [("W", true)]
      ⟨"mainnet-beta", some ⟨"TOK", 6⟩, some [("W", ⟨mkRat 5 1, mkRat 0 1⟩)], none⟩
      "W" (fun _ => .ok "SIG") (mkRat 1 1) defaultOpts).pw "W" = false ∧
    (buy [("W", true)]
      ⟨"mainnet-beta", some ⟨"TOK", 6⟩, some [("W", ⟨mkRat 5 1, mkRat 0 1⟩)], none⟩
      "W" (fun _ => .ok "SIG") (mkRat 1 1) defaultOpts).events =
      [⟨"W", some (-(mkRat 1 1)), none⟩] :=
  have h := (pause_cleared_on_gate_pass [("W", true)]
    ⟨"mainnet-beta", some ⟨"TOK", 6⟩, some [("W", ⟨mkRat 5 1, mkRat 0 1⟩)], none⟩
    "W" (fun _ => .ok "SIG") (mkRat 1 1) defaultOpts).1 (by decide)
  ⟨h.1, h.2 "SIG" (by decide)⟩

/-- Claim C10. For every buy or sell call whose context has no cached
balance map or no entry for the calling wallet, the balance gate
performs no check: the wallet is not paused afterwards, no
balance-too-low message is logged, and the venue call proceeds whatever
the requested amount is - to Jupiter on a network starting with
"mainnet", and to Raydium on every other network whenever a pool
identifier is available (the pool requirement being independent of the
balance gate). -/
theorem missing_balance_no_gate (pw : PausedMap) (ctx : TradeCtx) (key : String)
    (venueRes : VenueCall → Except String String) (amount : ℚ) (opts : TradeOpts)
    (hno : ctx.walletBalances.bind (List.lookup key) = none) :
    (getPaused (buy pw ctx key venueRes amount opts).pw key = false ∧
      TLog.balanceTooLow key ∉ (buy pw ctx key venueRes amount opts).logs ∧
      (strStartsWith ctx.network "mainnet" = true →
        (buy pw ctx key venueRes amount opts).calls =
          [⟨.jupiter, buildAmount ctx amount, none⟩]) ∧
      (∀ pid, strStartsWith ctx.network "mainnet" = false →
        jsOrStr opts.poolId ctx.poolId = some pid →
        (buy pw ctx key venueRes amount opts).calls =
          [⟨.raydium, buildAmount ctx amount, some pid⟩])) ∧
    (getPaused (sell pw ctx key venueRes amount opts).pw key = false ∧
      TLog.balanceTooLow key ∉ (sell pw ctx key venueRes amount opts).logs ∧
      (strStartsWith ctx.network "mainnet" = true →
        (sell pw ctx key venueRes amount opts).calls =
          [⟨.jupiter, buildAmount ctx amount, none⟩]) ∧
      (∀ pid, strStartsWith ctx.network "mainnet" = false →
        jsOrStr opts.poolId ctx.poolId = some pid →
        (sell pw ctx key venueRes amount opts).calls =
          [⟨.raydium, buildAmount ctx amount, some pid⟩])) := by
  have hgb : buyGateTrips ctx key amount = false := by
    simp [buyGateTrips, hno]
  have hgs : sellGateTrips ctx key amount = false := by
    simp [sellGateTrips, hno]
  have hb : buy pw ctx key venueRes amount opts =
      tradeTail pw ctx key venueRes opts [.buyRequest amount] .missingPoolBuy
        ⟨key, some (qNeg amount), none⟩ (buildAmount ctx amount) := by
    simp [buy, hgb]
  have hs : sell pw ctx key venueRes amount opts =
      tradeTail pw ctx key venueRes opts [.sellRequest amount] .missingPoolSell
        ⟨key, none, some (qNeg amount)⟩ (buildAmount ctx amount) := by
    simp [sell, hgs]
  rw [hb, hs]
  refine ⟨⟨(tradeTail_obs _ _ _ _ _ _ _ _ _).1, ?_,
      fun hm => tradeTail_calls_mainnet _ _ _ _ _ _ _ _ _ hm,
      fun pid hm hp => tradeTail_calls_devnet _ _ _ _ _ _ _ _ _ pid hm hp⟩,
    ⟨(tradeTail_obs _ _ _ _ _ _ _ _ _).1, ?_,
      fun hm => tradeTail_calls_mainnet _ _ _ _ _ _ _ _ _ hm,
      fun pid hm hp => tradeTail_calls_devnet _ _ _ _ _ _ _ _ _ pid hm hp⟩⟩
  · rcases tradeTail_logs pw ctx key venueRes opts [.buyRequest amount] .missingPoolBuy
      ⟨key, some (qNeg amount), none⟩ (buildAmount ctx amount) with h | h <;>
      rw [h] <;> simp
  · rcases tradeTail_logs pw ctx key venueRes opts [.sellRequest amount] .missingPoolSell
      ⟨key, none, some (qNeg amount)⟩ (buildAmount ctx amount) with h | h <;>
      rw [h] <;> simp

/-- Witness for C10: with no cached balance map a buy of amount 0
proceeds to the venue executor, unpaused. -/
theorem missing_balance_no_gate_witness :
    getPaused (buy [] ⟨"mainnet-beta", some ⟨"TOK", 6⟩, none, none⟩ "W"
      (fun _ => .ok "S") (mkRat 0 1) defaultOpts).pw "W" = false ∧
    (buy [] ⟨"mainnet-beta", some ⟨"TOK", 6⟩, none, none⟩ "W"
      (fun _ => .ok "S") (mkRat 0 1) defaultOpts).calls =
      [⟨.jupiter,
        buildAmount ⟨"mainnet-beta", some ⟨"TOK", 6⟩, none, none⟩ (mkRat 0 1), none⟩] :=
  have h := missing_balance_no_gate [] ⟨"mainnet-beta", some ⟨"TOK", 6⟩, none, none⟩ "W"
    (fun _ => .ok "S") (mkRat 0 1) defaultOpts rfl
  ⟨h.1.1, h.1.2.2.1 (by decide)⟩

/-- Claim C4, counterexample. The claim states that a network
identifier starting with the prefix "main" routes to Venue A (Jupiter).
The code tests `startsWith('mainnet')`: the identifier "main" starts
with "main" yet its buy is executed by Venue B (Raydium). -/
theorem route_main_designation_cex :
    strStartsWith "main" "main" = true ∧
    (buy [] ⟨"main", some ⟨"TOK", 6⟩, none, some "P"⟩ "W"
      (fun _ => .ok "S") (mkRat 1 1) defaultOpts).calls =
      [⟨.raydium, 1000000, some "P"⟩] := by decide

/-- Claim C4 as amended. For every buy or sell call, the venue is
chosen by the prefix "mainnet" (not "main"): `routeVenue` maps exactly
the network identifiers starting with "mainnet" to Venue A (Jupiter)
and every other identifier to Venue B (Raydium), it is a pure function
of the network identifier alone, and every venue call made by a buy or
sell is made by `routeVenue ctx.network`. -/
theorem trade_routes_by_mainnet (ctx : TradeCtx) :
    (routeVenue ctx.network = .jupiter ↔ strStartsWith ctx.network "mainnet" = true) ∧
    ∀ pw key venueRes amount opts c,
      (c ∈ (buy pw ctx key venueRes amount opts).calls ∨
        c ∈ (sell pw ctx key venueRes amount opts).calls) →
      c.venue = routeVenue ctx.network := by
  constructor
  · rw [routeVenue]
    cases hm : strStartsWith ctx.network "mainnet" <;> simp [hm]
  · rintro pw key venueRes amount opts c (hc | hc)
    · exact (buy_calls _ _ _ _ _ _ _ hc).2
    · exact (sell_calls _ _ _ _ _ _ _ hc).2

/-- Witness for C4 as amended, on the spec scenario: the same buy call
is executed by Jupiter under network "mainnet-beta" and by Raydium
under network "devnet". -/
theorem trade_routes_by_mainnet_witness :
    VenueCall.venue ⟨.jupiter, 500000, none⟩ = routeVenue "mainnet-beta" ∧
    VenueCall.venue ⟨.raydium, 500000, some "P"⟩ = routeVenue "devnet" ∧
    routeVenue "mainnet-beta" = .jupiter ∧ routeVenue "devnet" = .raydium :=
  ⟨(trade_routes_by_mainnet ⟨"mainnet-beta", some ⟨"TOK", 6⟩, none, none⟩).2
      [] "W" (fun _ => .ok "S") (mkRat 1 2) defaultOpts ⟨.jupiter, 500000, none⟩
      (Or.inl (by decide)),
    (trade_routes_by_mainnet ⟨"devnet", some ⟨"TOK", 6⟩, none, some "P"⟩).2
      [] "W" (fun _ => .ok "S") (mkRat 1 2) defaultOpts ⟨.raydium, 500000, some "P"⟩
      (Or.inl (by decide)),
    by decide, by decide⟩

/-- Claim C5. For every trade request with decimal amount `a` and a
token of decimal precision `d` in the context, the integer base-unit
amount handed to the venue executor (by buy or sell, on either venue)
equals `a * 10 ^ d` rounded to the nearest integer (`Math.round`,
half up). -/
theorem venue_amount_round (pw : PausedMap) (ctx : TradeCtx) (key : String)
    (venueRes : VenueCall → Except String String) (amount : ℚ) (opts : TradeOpts)
    (tok : Token) (htok : ctx.token = some tok) (c : VenueCall)
    (hc : c ∈ (buy pw ctx key venueRes amount opts).calls ∨
      c ∈ (sell pw ctx key venueRes amount opts).calls) :
    c.amount = round (amount * (10 : ℚ) ^ tok.decimals) := by
  have hba : buildAmount ctx amount = round (amount * (10 : ℚ) ^ tok.decimals) := by
    rw [buildAmount_eq, htok]
    simp
  rw [← hba]
  rcases hc with hc | hc
  · exact (buy_calls _ _ _ _ _ _ _ hc).1
  · exact (sell_calls _ _ _ _ _ _ _ hc).1

/-- Witness for C5, on the spec scenario: with 6 decimals, `buy(0.5)`
hands the venue executor the integer amount `round(0.5 * 10^6) =
500000`. -/
theorem venue_amount_round_witness :
    VenueCall.amount ⟨.jupiter, 500000, none⟩ =
      round ((mkRat 1 2) * (10 : ℚ) ^ (6 : ℕ)) ∧
    round ((mkRat 1 2) * (10 : ℚ) ^ (6 : ℕ)) = 500000 :=
  ⟨venue_amount_round [] ⟨"mainnet-beta", some ⟨"TOK", 6⟩, none, none⟩ "W"
      (fun _ => .ok "S") (mkRat 1 2) defaultOpts ⟨"TOK", 6⟩ rfl
      ⟨.jupiter, 500000, none⟩ (Or.inl (by decide)),
    by rw [← qPow10_eq, ← qMul_eq, ← qRound_eq]; decide⟩

/-- Claim C8, counterexample. The claim states every integer amount
reaching a venue executor is strictly positive. Nothing in the code
enforces this: a buy of amount 0 on a wallet with no cached balance
entry reaches the Jupiter executor with integer amount 0. -/
theorem venue_amount_not_pos_cex :
    (⟨.jupiter, 0, none⟩ : VenueCall) ∈
      (buy [] ⟨"mainnet-beta", some ⟨"TOK", 6⟩, none, none⟩ "W"
        (fun _ => .ok "S") (mkRat 0 1) defaultOpts).calls ∧
    ¬(0 < (⟨.jupiter, 0, none⟩ : VenueCall).amount) := by decide

/-- Claim C8 as amended. Every integer amount reaching a venue executor
equals `round(a * 10 ^ d)`, and it is strictly positive whenever the
requested decimal amount `a` satisfies `a * 10 ^ d ≥ 1/2` (at least
half a base unit); smaller or zero requests reach the venue with a
non-positive integer amount. -/
theorem venue_amount_pos (pw : PausedMap) (ctx : TradeCtx) (key : String)
    (venueRes : VenueCall → Except String String) (amount : ℚ) (opts : TradeOpts)
    (tok : Token) (htok : ctx.token = some tok) (c : VenueCall)
    (hc : c ∈ (buy pw ctx key venueRes amount opts).calls ∨
      c ∈ (sell pw ctx key venueRes amount opts).calls)
    (ha : 1 / 2 ≤ amount * (10 : ℚ) ^ tok.decimals) :
    0 < c.amount := by
  have hba : c.amount = round (amount * (10 : ℚ) ^ tok.decimals) := by
    have hb : buildAmount ctx amount = round (amount * (10 : ℚ) ^ tok.decimals) := by
      rw [buildAmount_eq, htok]
      simp
    rw [← hb]
    rcases hc with hc | hc
    · exact (buy_calls _ _ _ _ _ _ _ hc).1
    · exact (sell_calls _ _ _ _ _ _ _ hc).1
  have h1 : (1 : ℤ) ≤ round (amount * (10 : ℚ) ^ tok.decimals) := by
    rw [round_eq, Int.le_floor]
    push_cast
    linarith
  rw [hba]
  exact lt_of_lt_of_le zero_lt_one h1

/-- Witness for C8 as amended: the 500000-base-unit call of the
`buy(0.5)` scenario is strictly positive. -/
theorem venue_amount_pos_witness :
    0 < (⟨.jupiter, 500000, none⟩ : VenueCall).amount :=
  venue_amount_pos [] ⟨"mainnet-beta", some ⟨"TOK", 6⟩, none, none⟩ "W"
    (fun _ => .ok "S") (mkRat 1 2) defaultOpts ⟨"TOK", 6⟩ rfl
    ⟨.jupiter, 500000, none⟩ (Or.inl (by decide))
    (by rw [(by rw [Rat.mkRat_eq_div]; norm_num : (1 : ℚ) / 2 = mkRat 1 2),
          ← qPow10_eq, ← qMul_eq]
        decide)

/-- Claim C6. In per-bot mode, a strategy invocation that throws for
one wallet is caught and logged together with that wallet's address,
and the orchestrator proceeds to the next wallet: for any wallet list
split as `ws1 ++ w :: ws2` where `w`'s invocation throws `e`, every
wallet is still invoked exactly once in order, and the message stream
is the stream for `ws1`, then `w`'s running log and error log, then the
stream for `ws2` - the surrounding wallets' processing is exactly what
it would be on their own. -/
theorem perBot_isolation (strat : Option String → Except String Unit)
    (ws1 ws2 : List String) (w : String) (e : String)
    (hw : strat (some w) = .error e) :
    (onMessage (.populated true) (ws1 ++ w :: ws2) .perBot strat).stratCalls =
      (ws1 ++ w :: ws2).map some ∧
    (onMessage (.populated true) (ws1 ++ w :: ws2) .perBot strat).msgs =
      [.logReceived, .logPreparing] ++ (runPerBotLoop strat ws1).1 ++
        [.logRunningBot w, .logBotError w e] ++ (runPerBotLoop strat ws2).1 := by
  have hne : (ws1 ++ w :: ws2).isEmpty = false := by cases ws1 <;> rfl
  constructor
  · simp only [onMessage, Bool.not_true, hne]
    simp only [if_false, Bool.false_eq_true]
    exact runPerBotLoop_calls strat _
  · simp only [onMessage, Bool.not_true, hne]
    simp only [if_false, Bool.false_eq_true]
    rw [runPerBotLoop_append]
    simp only [runPerBotLoop, hw]
    simp

/-- Witness for C6, on the spec scenario: 3 wallets where wallet 2's
invocation throws; wallets 1 and 3 still execute. -/
theorem perBot_isolation_witness :
    (onMessage (.populated true) (["A"] ++ "B" :: ["C"]) .perBot
      (fun t => if t = some "B" then .error "boom" else .ok ())).stratCalls =
      (["A"] ++ "B" :: ["C"]).map some ∧
    (onMessage (.populated true) (["A"] ++ "B" :: ["C"]) .perBot
      (fun t => if t = some "B" then .error "boom" else .ok ())).msgs =
      [.logReceived, .logPreparing] ++
        (runPerBotLoop (fun t => if t = some "B" then .error "boom" else .ok ()) ["A"]).1 ++
        [.logRunningBot "B", .logBotError "B" "boom"] ++
        (runPerBotLoop (fun t => if t = some "B" then .error "boom" else .ok ()) ["C"]).1 :=
  perBot_isolation (fun t => if t = some "B" then .error "boom" else .ok ())
    ["A"] ["C"] "B" "boom" (by decide)

/-- Claim C9. When the user code compiles and initializes but the
populated export slot has no callable `strategy`, the invocation ends
after a log: the message stream is exactly the received, preparing and
no-strategy logs, it contains no `{error}` message, and no strategy
invocation (hence no venue call) is made, for every wallet list, mode
and strategy behavior. -/
theorem no_strategy_export_log_only (wallets : List String) (mode : Mode)
    (strat : Option String → Except String Unit) :
    (onMessage (.populated false) wallets mode strat).msgs =
      [.logReceived, .logPreparing, .logNoStrategy] ∧
    (∀ m, WMsg.errorOut m ∉ (onMessage (.populated false) wallets mode strat).msgs) ∧
    (onMessage (.populated false) wallets mode strat).stratCalls = [] := by
  refine ⟨rfl, ?_, rfl⟩
  intro m
  simp [onMessage]

/-- Witness for C9 at a concrete run. -/
theorem no_strategy_export_log_only_witness :
    (onMessage (.populated false) ["A"] .perBot (fun _ => .ok ())).msgs =
      [.logReceived, .logPreparing, .logNoStrategy] ∧
    WMsg.errorOut "compile error" ∉
      (onMessage (.populated false) ["A"] .perBot (fun _ => .ok ())).msgs ∧
    (onMessage (.populated false) ["A"] .perBot (fun _ => .ok ())).stratCalls = [] :=
  ⟨(no_strategy_export_log_only ["A"] .perBot (fun _ => .ok ())).1,
    (no_strategy_export_log_only ["A"] .perBot (fun _ => .ok ())).2.1 "compile error",
    (no_strategy_export_log_only ["A"] .perBot (fun _ => .ok ())).2.2⟩

end SniperLab
